import Mathlib

/-!
Verification of the quiz-generation pipeline in `scripts/generate_quiz_data.py`:
the corpus parser (`parse_trivia_file`), the key-phrase extractor
(`extract_key_phrases`), the category classifier (`determine_major_category`),
the quiz synthesizer (`create_quiz`), and the batch orchestrator (`main`).

The Python code is shallowly embedded on Lean lists and strings.  External
collaborators (the spaCy NLP pipeline and `random.sample`) are passed in as
explicit function arguments; every other operation is translated directly from
the source.
-/

namespace QuizGen

/-! ## Python string primitives, modelled on the codepoint (`List Char`) level -/

/-- Model of Python `str.strip()` on a character list: drop whitespace from
both ends.  (Python's whitespace set also has a few rare control characters;
for the corpus format only space/tab/CR/LF matter.) -/
def stripChars (l : List Char) : List Char :=
  ((l.dropWhile Char.isWhitespace).reverse.dropWhile Char.isWhitespace).reverse

/-- Model of Python `str.strip()`. -/
def pyStrip (s : String) : String :=
  ⟨stripChars s.data⟩

/-- Boolean prefix test on character lists (model of `str.startswith`). -/
def isPrefixB : List Char → List Char → Bool
  | [], _ => true
  | _ :: _, [] => false
  | a :: as, b :: bs => a == b && isPrefixB as bs

/-- Model of Python `s.startswith(pre)`. -/
def pyStartsWith (s pre : String) : Bool :=
  isPrefixB pre.data s.data

/-- Model of the Python slice `s[n:]` (codepoint based). -/
def pyDrop (s : String) (n : Nat) : String :=
  ⟨s.data.drop n⟩

/-- Model of Python `str.lower()` (ASCII case folding, as in the corpus data). -/
def pyLower (s : String) : String :=
  ⟨s.data.map Char.toLower⟩

/-- Model of Python `sep.join(items)`. -/
def pyJoin (sep : String) : List String → String
  | [] => ""
  | [x] => x
  | x :: y :: xs => x ++ sep ++ pyJoin sep (y :: xs)

/-- Split a character list at whitespace characters, keeping (possibly empty)
groups between separators. -/
def splitWsAux : List Char → List Char → List (List Char)
  | [], cur => [cur.reverse]
  | c :: cs, cur =>
    if c.isWhitespace then cur.reverse :: splitWsAux cs []
    else splitWsAux cs (c :: cur)

/-- Model of Python `str.split()` with no argument: split on whitespace runs,
discarding empty pieces. -/
def pySplit (s : String) : List String :=
  ((splitWsAux s.data []).filter (fun w => !w.isEmpty)).map (fun w => ⟨w⟩)

/-- Model of Python `str.capitalize()`: upper-case the first character and
lower-case the rest. -/
def pyCapitalize (s : String) : String :=
  match s.data with
  | [] => s
  | c :: cs => ⟨c.toUpper :: cs.map Char.toLower⟩

/-- Helper of `dedupKeepFirst`: keep elements not yet seen. -/
def dedupKeepFirstAux (seen : List String) : List String → List String
  | [] => []
  | x :: xs =>
    if x ∈ seen then dedupKeepFirstAux seen xs
    else x :: dedupKeepFirstAux (x :: seen) xs

/-- Model of one deterministic rendering of Python `list(set(xs))`: the
distinct elements of `xs`.  CPython's `set` iteration order is
implementation-defined; we fix first-occurrence order.  All properties proved
about it (membership, distinctness, cardinality) are order-independent. -/
def dedupKeepFirst (l : List String) : List String :=
  dedupKeepFirstAux [] l

/-! ## Data model -/

/-- An answer option, Python dict `{'id': ..., 'text': ...}`. -/
structure QOption where
  id : String
  text : String
deriving DecidableEq, Repr

/-- A parsed question record, the dict built by `parse_trivia_file`. -/
structure QuestionRecord where
  question : String
  options : List QOption
  correctAnswer : Option String
  correct_text : Option String
deriving DecidableEq, Repr

/-- A question record after `determine_tags` added a `tags` key (the shape
consumed by `create_quiz`). -/
structure TaggedQuestion where
  question : String
  options : List QOption
  correctAnswer : Option String
  correct_text : Option String
  tags : List String
deriving DecidableEq, Repr

/-- One entry of the `questions` array of an output quiz. -/
structure QuizItem where
  id : String
  type : String
  question : String
  options : List QOption
  correctAnswer : Option String
  points : Nat
  explanation : String
deriving DecidableEq, Repr

/-- The fixed `settings` object of an output quiz. -/
structure QuizSettings where
  randomizeQuestions : Bool
  randomizeOptions : Bool
  showExplanation : Bool
  showCorrectAnswer : Bool
  passingScore : Nat
  allowNavigation : Bool
  showProgressBar : Bool
  showTimeRemaining : Bool
deriving DecidableEq, Repr

/-- The `difficultyDistribution` object of quiz metadata. -/
structure DifficultyDistribution where
  easy : Nat
  medium : Nat
  hard : Nat
deriving DecidableEq, Repr

/-- The `metadata` object of an output quiz. -/
structure QuizMetadata where
  totalPoints : Nat
  estimatedDuration : Nat
  difficultyDistribution : DifficultyDistribution
  tags : List String
deriving DecidableEq, Repr

/-- An output quiz document entry. -/
structure Quiz where
  id : String
  title : String
  description : String
  questions : List QuizItem
  settings : QuizSettings
  metadata : QuizMetadata
deriving DecidableEq, Repr

/-! ## Corpus parser (`parse_trivia_file`, lines 43–90) -/

/-- The flush at a `#Q` marker: save the previous question if it exists and
has options (lines 57–59; the same test guards the end-of-file flush). -/
def flushCurrent (qs : List QuestionRecord) : Option QuestionRecord → List QuestionRecord
  | some cq => if cq.options = [] then qs else qs ++ [cq]
  | none => qs

/-- The correct-answer update of an option line (lines 76–78): set
`correctAnswer` to the fresh option id when a truthy pending `correct_text`
equals the option text (Python's
`current_question.get('correct_text') and option_text == ...`). -/
def matchCorrect (correctAnswer : Option String) (option_text option_id : String) :
    Option String → Option String
  | some ct => if ct ≠ "" ∧ option_text = ct then some option_id else correctAnswer
  | none => correctAnswer

/-- Appending one option line to the active record (lines 69–78): the new
option's id is the current option count. -/
def addOption (cq : QuestionRecord) (line : String) : QuestionRecord :=
  let option_text := pyStrip (pyDrop line 2)
  let option_id := toString cq.options.length
  { cq with
    options := cq.options ++ [{ id := option_id, text := option_text }],
    correctAnswer := matchCorrect cq.correctAnswer option_text option_id cq.correct_text }

/-- One step of the parser's line loop.  The state is the pair
`(questions, current_question)` of the Python function. -/
def processLine (acc : List QuestionRecord × Option QuestionRecord) (rawLine : String) :
    List QuestionRecord × Option QuestionRecord :=
  let line := pyStrip rawLine
  if line = "" then acc
  else if pyStartsWith line "#Q" then
    (flushCurrent acc.1 acc.2,
     some { question := pyStrip (pyDrop line 3), options := [],
            correctAnswer := none, correct_text := none })
  else if pyStartsWith line "^" then
    match acc.2 with
    | some cq => (acc.1, some { cq with correct_text := some (pyStrip (pyDrop line 2)) })
    | none => acc
  else if pyStartsWith line "A" || pyStartsWith line "B" ||
          pyStartsWith line "C" || pyStartsWith line "D" then
    match acc.2 with
    | some cq => (acc.1, some (addOption cq line))
    | none => acc
  else acc

/-- The line loop of `parse_trivia_file`. -/
def parseFold (lines : List String) : List QuestionRecord × Option QuestionRecord :=
  lines.foldl processLine ([], none)

/-- The end-of-input flush (lines 80–86): append the final active record if
it has options, defaulting an unresolved `correctAnswer` to option "0" and
backfilling `correct_text` with the first option's text. -/
def trailingFlush (qs : List QuestionRecord) : Option QuestionRecord → List QuestionRecord
  | some cq =>
    if cq.options = [] then qs
    else
      qs ++ [if cq.correctAnswer = none then
               { cq with correctAnswer := some "0",
                         correct_text := cq.options.head?.map QOption.text }
             else cq]
  | none => qs

/-- End-of-file handling of `parse_trivia_file`: the trailing flush followed
by the filter dropping questions without a correct answer (lines 88–89). -/
def finishParse (st : List QuestionRecord × Option QuestionRecord) : List QuestionRecord :=
  (trailingFlush st.1 st.2).filter (fun q => q.correctAnswer.isSome)

/-- Model of `parse_trivia_file`, taking the file's lines as input (file I/O
is outside the model; the function is otherwise a line-by-line translation). -/
def parse_trivia_file (lines : List String) : List QuestionRecord :=
  finishParse (parseFold lines)

/-! ## Category classifier (`determine_major_category`, lines 188–202) -/

/-- The fixed category table `MAJOR_CATEGORIES` (lines 32–41), in source
order.  Python 3.7+ dict literals preserve this order. -/
def MAJOR_CATEGORIES : List (String × List String) :=
  [("Science", ["science", "technology", "physics", "chemistry", "biology", "mathematics"]),
   ("Entertainment", ["movies", "television", "music", "video-games", "celebrities"]),
   ("History", ["history", "historical", "ancient", "medieval", "modern"]),
   ("Geography", ["geography", "world", "countries", "cities", "places"]),
   ("Sports", ["sports", "athletics", "games", "olympics", "players"]),
   ("Literature", ["literature", "books", "authors", "poetry", "novels"]),
   ("Knowledge", ["general", "knowledge", "facts", "information", "trivia"]),
   ("Nature", ["animals", "plants", "environment", "biology", "earth"])]

/-- Substring test on character lists (model of Python `needle in haystack`). -/
def containsSub (needle : List Char) : List Char → Bool
  | [] => isPrefixB needle []
  | c :: cs => isPrefixB needle (c :: cs) || containsSub needle cs

/-- Model of Python `needle in haystack` for strings. -/
def pyContains (haystack needle : String) : Bool :=
  containsSub needle.data haystack.data

/-- Model of Python `max(items, key=lambda x: x[1])` on a nonempty list of
scored names: scanning left to right, an item replaces the current maximum
only when strictly greater, so the first item attaining the maximum wins. -/
def pickFirstMax (x : String × Nat) : List (String × Nat) → String × Nat
  | [] => x
  | y :: ys => if x.2 < y.2 then pickFirstMax y ys else pickFirstMax x ys

/-- `max(items, key=...)[0]` on a possibly empty score list, returning the
default category `'Knowledge'` when the list is empty (the `if scores:`
fallback of lines 200–202). -/
def selectTop : List (String × Nat) → String
  | [] => "Knowledge"
  | x :: xs => (pickFirstMax x xs).1

/-- The raw per-category scores against the lower-cased question text and
tags, in table order. -/
def scoredCategories (tags : List String) (question : String) : List (String × Nat) :=
  let text := pyJoin " " (pyLower question :: tags.map pyLower)
  MAJOR_CATEGORIES.map
    (fun p => (p.1, p.2.countP (fun keyword => pyContains text (pyLower keyword))))

/-- Model of `determine_major_category`: the `scores` defaultdict holds
exactly the categories with at least one keyword match, in first-insertion
order, which is table order; then `max(scores.items(), key=lambda x: x[1])[0]`
is taken, or `'Knowledge'` when no category matched. -/
def determine_major_category (tags : List String) (question : String) : String :=
  selectTop ((scoredCategories tags question).filter (fun pc => 0 < pc.2))

/-- Classifier written from the spec's words (§4.4): the category with the
highest score over the whole fixed table, ties resolved by earliest position
in the fixed table order, and the default category `"Knowledge"` when every
score is 0. -/
def spec_classify (tags : List String) (question : String) : String :=
  if (scoredCategories tags question).all (fun pc => pc.2 = 0) then "Knowledge"
  else selectTop (scoredCategories tags question)

/-! ## Key-phrase extractor (`extract_key_phrases`, lines 109–145) -/

/-- Model of `collections.Counter(l)`: keys in first-seen order, each paired
with its number of occurrences in `l`. -/
def countsList (l : List String) : List (String × Nat) :=
  (dedupKeepFirst l).map (fun k => (k, l.count k))

/-- Model of `Counter.most_common n`: repeatedly extract the first entry with
the maximal count, i.e. order by descending count with ties broken by
first-seen position (the documented CPython behaviour). -/
def most_common : Nat → List (String × Nat) → List (String × Nat)
  | 0, _ => []
  | _ + 1, [] => []
  | n + 1, x :: xs =>
    let m := pickFirstMax x xs
    m :: most_common n ((x :: xs).eraseP (fun y => y = m))

/-- The merged phrase stream of `extract_key_phrases`: the spaCy-derived
streams (noun chunks, filtered named entities, standalone nouns — an external
NLP collaborator, passed as the oracle `nlpStream` on the concatenated
question text), followed by the lower-cased tags of length > 2. -/
def mergedPhrases (nlpStream : String → List String) (questions : List TaggedQuestion)
    (tags : List String) : List String :=
  let all_text := pyJoin " " (questions.map TaggedQuestion.question)
  nlpStream all_text ++ (tags.filter (fun tag => 2 < tag.length)).map pyLower

/-- Model of `extract_key_phrases` (lines 140–145 for the selection): count
the merged phrase stream, take `most_common(5)`, and keep entries with
count > 1 and at most 3 words. -/
def extract_key_phrases (nlpStream : String → List String) (questions : List TaggedQuestion)
    (tags : List String) : List String :=
  let phrase_counts := countsList (mergedPhrases nlpStream questions tags)
  ((most_common 5 phrase_counts).filter
      (fun pc => 1 < pc.2 ∧ (pySplit pc.1).length ≤ 3)).map Prod.fst

/-! ## Quiz synthesizer (`generate_title_and_description`, `create_quiz`) -/

/-- Model of `generate_title_and_description` (lines 147–186), given the
key-phrase oracle. -/
def generate_title_and_description (nlpStream : String → List String)
    (questions : List TaggedQuestion) (major_category : String) (tags : List String) :
    String × String :=
  let key_phrases := extract_key_phrases nlpStream questions tags
  let fmt := fun (phrase : String) =>
    pyJoin " " ((pySplit phrase).map pyCapitalize)
  let title :=
    match key_phrases with
    | [] => major_category ++ " Quiz Challenge"
    | k0 :: krest =>
      match krest with
      | [] => major_category ++ " Quiz: " ++ fmt k0
      | k1 :: _ => major_category ++ " Quiz: " ++ fmt k0 ++ " and " ++ fmt k1
  let num_questions := questions.length
  let easy := num_questions / 3
  let medium := num_questions / 3
  let hard := num_questions - 2 * (num_questions / 3)
  let tag_phrase :=
    if 1 < tags.length then pyJoin ", " (tags.take 3)
    else match tags with
         | t :: _ => t
         | [] => ""
  let description :=
    "Test your " ++ pyLower major_category ++
    " knowledge with this comprehensive quiz! Features " ++ toString num_questions ++
    " questions covering " ++ tag_phrase ++ ". Includes " ++ toString easy ++
    " easy, " ++ toString medium ++ " medium, and " ++ toString hard ++
    " challenging questions. Can you achieve a passing score of 70%?"
  (title, description)

/-- The `all_tags` accumulation loop of `create_quiz` (lines 209–211). -/
def collectTags (selected : List TaggedQuestion) : List String :=
  selected.foldl (fun acc q => acc ++ q.tags) []

/-- The concatenated question text passed to `determine_major_category`. -/
def joinedQuestions (selected : List TaggedQuestion) : String :=
  pyJoin " " (selected.map TaggedQuestion.question)

/-- Model of `create_quiz` (lines 204–258).  `random.sample` is an external
random source, passed as the argument `sample`; the call asks it for
`min(15, len(questions))` records.  `nlpStream` is the spaCy oracle of
`extract_key_phrases`. -/
def create_quiz (sample : List TaggedQuestion → Nat → List TaggedQuestion)
    (nlpStream : String → List String) (questions : List TaggedQuestion)
    (quiz_id : Nat) : Quiz :=
  let selected_questions := sample questions (min 15 questions.length)
  let all_tags := collectTags selected_questions
  let major_category := determine_major_category all_tags (joinedQuestions selected_questions)
  -- tags = [major_category] + list(set(all_tags))[:5]
  let tags := major_category :: (dedupKeepFirst all_tags).take 5
  let td := generate_title_and_description nlpStream selected_questions major_category tags
  { id := "quiz_" ++ toString quiz_id,
    title := td.1,
    description := td.2,
    questions := selected_questions.enum.map (fun iq =>
      { id := "q" ++ toString (iq.1 + 1),
        type := "MULTIPLE_CHOICE",
        question := iq.2.question,
        options := iq.2.options,
        correctAnswer := iq.2.correctAnswer,
        points := 10,
        explanation := "The correct answer is: " ++
          (match iq.2.correct_text with
           | some t => t
           | none => "None") }),
    settings :=
      { randomizeQuestions := true, randomizeOptions := true, showExplanation := true,
        showCorrectAnswer := true, passingScore := 70, allowNavigation := true,
        showProgressBar := true, showTimeRemaining := true },
    metadata :=
      { totalPoints := selected_questions.length * 10,
        estimatedDuration := selected_questions.length * 2,
        difficultyDistribution :=
          { easy := selected_questions.length / 3,
            medium := selected_questions.length / 3,
            hard := selected_questions.length - 2 * (selected_questions.length / 3) },
        tags := tags } }

/-! ## Batch orchestrator (`main`, lines 260–311) -/

/-- The inner loop of `main` over one window: `len(file_questions) // 15`
quizzes, the `j`-th built from `file_questions[j*15:(j+1)*15]`. -/
def windowQuizzes (sample : List TaggedQuestion → Nat → List TaggedQuestion)
    (nlpStream : String → List String) (w : List TaggedQuestion) : List Quiz :=
  (List.range (w.length / 15)).map
    (fun j => create_quiz sample nlpStream ((w.drop (j * 15)).take 15) j)

/-- The batching loop of `main` (lines 286–311): `len(all_questions)//100 + 1`
candidate windows `all_questions[i*100:(i+1)*100]`, empty windows skipped
(`continue`), one output document (one JSON file) per remaining window. -/
def generate_quizzes (sample : List TaggedQuestion → Nat → List TaggedQuestion)
    (nlpStream : String → List String) (all_questions : List TaggedQuestion) :
    List (List Quiz) :=
  (List.range (all_questions.length / 100 + 1)).filterMap (fun i =>
    let file_questions := (all_questions.drop (i * 100)).take 100
    if file_questions = [] then none
    else some (windowQuizzes sample nlpStream file_questions))

/-- The `i`-th candidate window slice of `main`'s loop:
`all_questions[i*100:(i+1)*100]`, or nothing when the slice is empty. -/
def windowSlice (all_questions : List TaggedQuestion) (i : Nat) :
    Option (List TaggedQuestion) :=
  let file_questions := (all_questions.drop (i * 100)).take 100
  if file_questions = [] then none else some file_questions

/-- The window slices actually materialised by `main`'s loop. -/
def loopWindows (all_questions : List TaggedQuestion) : List (List TaggedQuestion) :=
  (List.range (all_questions.length / 100 + 1)).filterMap (windowSlice all_questions)

/-- Modelled from the spec (§4.6): splitting the master sequence into
consecutive windows of 100 records, only the final window possibly shorter.
Used as the specification side of the batching refinement. -/
def chunks100 (l : List TaggedQuestion) : List (List TaggedQuestion) :=
  if l = [] then [] else l.take 100 :: chunks100 (l.drop 100)
termination_by l.length
decreasing_by
  rename_i h
  have hl : 0 < l.length := List.length_pos.mpr h
  simp only [List.length_drop]
  omega

/-! ## Parser invariants -/

/-- Well-formedness of an emitted record: non-empty options, and a resolved
`correctAnswer` references an option id. -/
def RecOk (q : QuestionRecord) : Prop :=
  q.options ≠ [] ∧ (q.correctAnswer = none ∨ ∃ o ∈ q.options, q.correctAnswer = some o.id)

/-- Well-formedness of the active record: option ids are `"0", "1", ...` in
encounter order, and a resolved `correctAnswer` references an option id. -/
def CurOk (cq : QuestionRecord) : Prop :=
  cq.options.map QOption.id = (List.range cq.options.length).map toString
  ∧ ∀ i, cq.correctAnswer = some i → ∃ o ∈ cq.options, o.id = i

/-- Invariant of the parser's loop state. -/
def StOk (st : List QuestionRecord × Option QuestionRecord) : Prop :=
  (∀ q ∈ st.1, RecOk q) ∧ ∀ cq, st.2 = some cq → CurOk cq

/-! ## Concrete inputs used by witnesses and counterexamples -/

/-- A deterministic stand-in for `random.sample` used at concrete inputs:
take the first `k` records.  It satisfies `random.sample`'s length contract
`len(sample(l, k)) = k` for `k ≤ len(l)`. -/
def sampleTake (l : List TaggedQuestion) (k : Nat) : List TaggedQuestion :=
  l.take k

/-- A spaCy oracle producing no noun chunks, entities or nouns. -/
def nlp0 (_ : String) : List String := []

/-- A minimal tagged question used to build concrete pools. -/
def dummyTQ : TaggedQuestion :=
  { question := "q", options := [{ id := "0", text := "x" }],
    correctAnswer := some "0", correct_text := some "x", tags := [] }

/-- A tagged question whose tag list already contains its major category. -/
def sciTQ : TaggedQuestion :=
  { question := "physics", options := [{ id := "0", text := "x" }],
    correctAnswer := some "0", correct_text := some "x", tags := ["Science"] }

/-- A spaCy oracle for the key-phrase counterexample: five four-word phrases
occurring three times each, followed by a one-word phrase occurring twice. -/
def cxStream (_ : String) : List String :=
  ["p q r s", "p q r s", "p q r s",
   "t u v w", "t u v w", "t u v w",
   "a b c d", "a b c d", "a b c d",
   "e f g h", "e f g h", "e f g h",
   "i j k l", "i j k l", "i j k l",
   "hit", "hit"]

/-- A spaCy oracle yielding just the phrase "hit" twice. -/
def hitStream (_ : String) : List String := ["hit", "hit"]

/-- The spec's end-to-end example file (§8). -/
def redLines : List String :=
  ["#Q What planet is known as the Red Planet?", "^ Mars",
   "A Venus", "B Mars", "C Jupiter", "D Saturn"]

/-- The record the parser produces from `redLines`. -/
def redRec : QuestionRecord :=
  { question := "What planet is known as the Red Planet?",
    options := [{ id := "0", text := "Venus" }, { id := "1", text := "Mars" },
                { id := "2", text := "Jupiter" }, { id := "3", text := "Saturn" }],
    correctAnswer := some "1", correct_text := some "Mars" }

/-- A file with an interior record whose declared correct text matches no
option, followed by a trailing record with an option and no `^` marker. -/
def c1Lines : List String :=
  ["#Q q1", "^ X", "A a", "#Q q2", "A b"]

/-- The interior record accumulated from `c1Lines` (unresolved correct answer). -/
def c1Interior : QuestionRecord :=
  { question := "q1", options := [{ id := "0", text := "a" }],
    correctAnswer := none, correct_text := some "X" }

/-- The trailing active record of `c1Lines` at end of input. -/
def c1Trailing : QuestionRecord :=
  { question := "q2", options := [{ id := "0", text := "b" }],
    correctAnswer := none, correct_text := none }

/-- An active record with a pending correct text already matched by its first
option. -/
def c10Cur : QuestionRecord :=
  { question := "q", options := [{ id := "0", text := "X" }],
    correctAnswer := some "0", correct_text := some "X" }

/-- A pool of 15 copies of `dummyTQ` (one full quiz group). -/
def pool15 : List TaggedQuestion := List.replicate 15 dummyTQ

/-- A pool of 14 copies of `dummyTQ`. -/
def pool14 : List TaggedQuestion := List.replicate 14 dummyTQ

/-- A window of 35 records (two full groups of 15 and a discarded tail of 5). -/
def pool35 : List TaggedQuestion := List.replicate 35 dummyTQ

/-- The quiz the pipeline produces from `pool15` with `sampleTake`/`nlp0`. -/
def c9Quiz : Quiz :=
  { id := "quiz_0",
    title := "Knowledge Quiz Challenge",
    description := "Test your knowledge knowledge with this comprehensive quiz! Features 15 questions covering Knowledge. Includes 5 easy, 5 medium, and 5 challenging questions. Can you achieve a passing score of 70%?",
    questions := (List.range 15).map (fun i =>
      { id := "q" ++ toString (i + 1), type := "MULTIPLE_CHOICE", question := "q",
        options := [{ id := "0", text := "x" }], correctAnswer := some "0",
        points := 10, explanation := "The correct answer is: x" }),
    settings :=
      { randomizeQuestions := true, randomizeOptions := true, showExplanation := true,
        showCorrectAnswer := true, passingScore := 70, allowNavigation := true,
        showProgressBar := true, showTimeRemaining := true },
    metadata :=
      { totalPoints := 150, estimatedDuration := 30,
        difficultyDistribution := { easy := 5, medium := 5, hard := 5 },
        tags := ["Knowledge"] } }

/-! # Helper lemmas -/

theorem flushCurrent_sub {qs : List QuestionRecord} {cur : Option QuestionRecord}
    {q : QuestionRecord} (hq : q ∈ flushCurrent qs cur) :
    q ∈ qs ∨ ∃ cq, cur = some cq ∧ q = cq ∧ cq.options ≠ [] := by
  cases cur with
  | none => exact Or.inl hq
  | some cq =>
    simp only [flushCurrent] at hq
    split at hq
    · exact Or.inl hq
    · rcases List.mem_append.mp hq with h | h
      · exact Or.inl h
      · rename_i hne
        exact Or.inr ⟨cq, rfl, List.mem_singleton.mp h, hne⟩

theorem addOption_ids (cq : QuestionRecord) (line : String)
    (h : cq.options.map QOption.id = (List.range cq.options.length).map toString) :
    (addOption cq line).options.map QOption.id =
      (List.range (addOption cq line).options.length).map toString := by
  simp only [addOption, List.map_append, List.length_append, List.map_cons, List.map_nil,
    List.length_cons, List.length_nil, Nat.zero_add]
  rw [h, List.range_succ, List.map_append]
  rfl

theorem addOption_correct (cq : QuestionRecord) (line : String)
    (h : ∀ i, cq.correctAnswer = some i → ∃ o ∈ cq.options, o.id = i) :
    ∀ i, (addOption cq line).correctAnswer = some i →
      ∃ o ∈ (addOption cq line).options, o.id = i := by
  intro i hi
  simp only [addOption] at hi ⊢
  cases hct : cq.correct_text with
  | none =>
    rw [hct, matchCorrect] at hi
    obtain ⟨o, ho, hoid⟩ := h i hi
    exact ⟨o, List.mem_append_left _ ho, hoid⟩
  | some ct =>
    rw [hct, matchCorrect] at hi
    by_cases hcond : ct ≠ "" ∧ pyStrip (pyDrop line 2) = ct
    · rw [if_pos hcond] at hi
      exact ⟨_, List.mem_append_right _ (List.mem_singleton.mpr rfl), Option.some.inj hi⟩
    · rw [if_neg hcond] at hi
      obtain ⟨o, ho, hoid⟩ := h i hi
      exact ⟨o, List.mem_append_left _ ho, hoid⟩

theorem curOk_recOk {cq : QuestionRecord} (h : CurOk cq) (hne : cq.options ≠ []) : RecOk cq := by
  refine ⟨hne, ?_⟩
  cases hca : cq.correctAnswer with
  | none => exact Or.inl rfl
  | some i =>
    obtain ⟨o, ho, hoid⟩ := h.2 i hca
    exact Or.inr ⟨o, ho, by simp [hca, hoid]⟩

theorem stOk_pair {qs : List QuestionRecord} {cur : Option QuestionRecord}
    (h1 : ∀ q ∈ qs, RecOk q) (h2 : ∀ cq, cur = some cq → CurOk cq) : StOk (qs, cur) :=
  ⟨h1, h2⟩

theorem freshOk (s : String) :
    CurOk { question := s, options := [], correctAnswer := none,
            correct_text := (none : Option String) } :=
  ⟨rfl, by intro i hi; cases hi⟩

theorem processLine_stOk (qs : List QuestionRecord) (cur : Option QuestionRecord) (line : String)
    (hqs : ∀ q ∈ qs, RecOk q) (hcur : ∀ cq, cur = some cq → CurOk cq) :
    StOk (processLine (qs, cur) line) := by
  cases cur with
  | none =>
    simp only [processLine]
    split
    · exact stOk_pair hqs hcur
    split
    · refine stOk_pair hqs ?_
      intro cq hc
      cases hc
      exact freshOk _
    split
    · exact stOk_pair hqs hcur
    split
    · exact stOk_pair hqs hcur
    · exact stOk_pair hqs hcur
  | some cq =>
    have h0 := hcur cq rfl
    simp only [processLine]
    split
    · exact stOk_pair hqs hcur
    split
    · refine stOk_pair ?_ ?_
      · intro q hq
        rcases flushCurrent_sub hq with h1 | ⟨cq', hc, hq', hne⟩
        · exact hqs q h1
        · injection hc with hc'
          subst hc'
          subst hq'
          exact curOk_recOk h0 hne
      · intro cq' hc'
        cases hc'
        exact freshOk _
    split
    · refine stOk_pair hqs ?_
      intro cq' hc'
      cases hc'
      exact ⟨h0.1, fun i hi => h0.2 i hi⟩
    split
    · refine stOk_pair hqs ?_
      intro cq' hc'
      cases hc'
      exact ⟨addOption_ids _ _ h0.1, addOption_correct _ _ h0.2⟩
    · exact stOk_pair hqs hcur

theorem foldl_stOk (ls : List String) :
    ∀ (qs : List QuestionRecord) (cur : Option QuestionRecord),
      (∀ q ∈ qs, RecOk q) → (∀ cq, cur = some cq → CurOk cq) →
      StOk (ls.foldl processLine (qs, cur)) := by
  induction ls with
  | nil => intro qs cur h1 h2; exact stOk_pair h1 h2
  | cons l ls ih =>
    intro qs cur h1 h2
    rw [List.foldl_cons]
    have h := processLine_stOk qs cur l h1 h2
    rcases hp : processLine (qs, cur) l with ⟨qs', cur'⟩
    rw [hp] at h
    exact ih qs' cur' h.1 h.2

theorem parseFold_stOk (lines : List String) : StOk (parseFold lines) :=
  foldl_stOk lines [] none (by intro q hq; cases hq) (by intro cq hc; cases hc)

theorem opts_head_id_zero {cq : QuestionRecord}
    (hids : cq.options.map QOption.id = (List.range cq.options.length).map toString)
    (hne : cq.options ≠ []) : ∃ o ∈ cq.options, o.id = "0" := by
  obtain ⟨o, rest, hor⟩ := List.exists_cons_of_ne_nil hne
  refine ⟨o, by rw [hor]; exact List.mem_cons_self _ _, ?_⟩
  rw [hor] at hids
  simp only [List.map_cons, List.length_cons] at hids
  rw [List.range_succ_eq_map, List.map_cons] at hids
  have h1 : o.id = toString (0 : Nat) := (List.cons.injEq _ _ _ _ ▸ hids).1
  rw [h1]
  rfl

theorem recOk_resolved {q : QuestionRecord} (h : RecOk q) (hs : q.correctAnswer.isSome = true) :
    q.options ≠ [] ∧ ∃ o ∈ q.options, q.correctAnswer = some o.id := by
  refine ⟨h.1, ?_⟩
  rcases h.2 with h' | h'
  · rw [h'] at hs; cases hs
  · exact h'

theorem mem_parse_isSome {lines : List String} {q : QuestionRecord}
    (h : q ∈ parse_trivia_file lines) : q.correctAnswer.isSome = true := by
  unfold parse_trivia_file finishParse at h
  exact (List.mem_filter.mp h).2

/-! # Claim C5 -/

/-- C5: every `QuestionRecord` returned by `parse_trivia_file` has a
non-empty option list, and its `correctAnswer` is the id of one of its
options. -/
theorem c5_parser_output_invariant (lines : List String) (q : QuestionRecord)
    (hq : q ∈ parse_trivia_file lines) :
    q.options ≠ [] ∧ ∃ o ∈ q.options, q.correctAnswer = some o.id := by
  have hst := parseFold_stOk lines
  unfold parse_trivia_file finishParse at hq
  rcases hfold : parseFold lines with ⟨qs, cur⟩
  rw [hfold] at hq hst
  obtain ⟨hqs, hcur⟩ := hst
  simp only at hqs hcur
  obtain ⟨hmem, hsome⟩ := List.mem_filter.mp hq
  simp only at hmem
  cases cur with
  | none =>
    rw [trailingFlush] at hmem
    exact recOk_resolved (hqs q hmem) hsome
  | some cq =>
    rw [trailingFlush] at hmem
    by_cases hopt : cq.options = []
    · rw [if_pos hopt] at hmem
      exact recOk_resolved (hqs q hmem) hsome
    · rw [if_neg hopt] at hmem
      rcases List.mem_append.mp hmem with h | h
      · exact recOk_resolved (hqs q h) hsome
      · have hqe := List.mem_singleton.mp h
        by_cases hca : cq.correctAnswer = none
        · rw [if_pos hca] at hqe
          subst hqe
          obtain ⟨o, ho, hid⟩ := opts_head_id_zero (hcur cq rfl).1 hopt
          exact ⟨hopt, ⟨o, ho, by rw [hid]⟩⟩
        · rw [if_neg hca] at hqe
          subst hqe
          exact recOk_resolved (curOk_recOk (hcur q rfl) hopt) hsome

/-- C5 witness: the spec's end-to-end example record satisfies the invariant. -/
theorem c5_witness :
    redRec.options ≠ [] ∧ ∃ o ∈ redRec.options, redRec.correctAnswer = some o.id :=
  c5_parser_output_invariant redLines redRec (by decide)

/-! # Claim C1 -/

/-- C1: an interior record (one flushed by a later `#Q` marker into the
accumulated list) whose correct-answer text matched no option — leaving
`correctAnswer` unresolved — never appears in the parser output (the function
is total, so the drop raises no error), while the trailing active record, if
it has at least one option and an unresolved `correctAnswer`, is emitted with
`correctAnswer` defaulted to `"0"` (and `correct_text` backfilled with the
first option's text).  The default is applied only on the end-of-input path,
so it never touches interior records. -/
theorem c1_interior_drop_trailing_default (lines : List String) :
    (∀ q ∈ (parseFold lines).1, q.correctAnswer = none → q ∉ parse_trivia_file lines)
    ∧ (∀ cq, (parseFold lines).2 = some cq → cq.options ≠ [] → cq.correctAnswer = none →
        { cq with correctAnswer := some "0",
                  correct_text := cq.options.head?.map QOption.text } ∈ parse_trivia_file lines) := by
  constructor
  · intro q _ hnone hmem
    have := mem_parse_isSome hmem
    rw [hnone] at this
    cases this
  · intro cq hc hopt hca
    unfold parse_trivia_file finishParse
    rcases hfold : parseFold lines with ⟨qs, cur⟩
    rw [hfold] at hc
    simp only at hc
    subst hc
    simp only [trailingFlush, if_neg hopt, if_pos hca]
    exact List.mem_filter.mpr ⟨List.mem_append_right _ (List.mem_singleton.mpr rfl), rfl⟩

/-- C1 witness: in `c1Lines` the interior record `c1Interior` (declared
correct text "X" matches no option) is dropped, and the trailing record
`c1Trailing` is emitted with `correctAnswer` defaulted to `"0"`. -/
theorem c1_witness :
    (c1Interior ∉ parse_trivia_file c1Lines)
    ∧ { c1Trailing with correctAnswer := some "0",
                        correct_text := c1Trailing.options.head?.map QOption.text }
        ∈ parse_trivia_file c1Lines := by
  have h := c1_interior_drop_trailing_default c1Lines
  exact ⟨h.1 c1Interior (by decide) (by decide), h.2 c1Trailing (by decide) (by decide) (by decide)⟩

/-! # Claim C8 -/

/-- C8 counterexample: the claim's "at most 4 options are attached to any
question" fails — the parser has no cap, so a file whose question is followed
by five lines starting with an option letter yields a record with 5 options. -/
theorem c8_counterexample :
    (parse_trivia_file ["#Q q", "A 1", "A 2", "A 3", "A 4", "A 5"]).map
      (fun q => q.options.length) = [5] := by
  decide

/-- C8 amended: only lines beginning with the recognized markers — `#Q`,
`^` (while a record is active) and the option letters A, B, C, D (while a
record is active) — affect the parser state; every other line and every blank
line is ignored.  However there is no cap on options: each option-letter line
seen while a record is active appends exactly one option, so a question can
accumulate more than 4 options. -/
theorem c8_marker_behaviour (qs : List QuestionRecord) (cur : Option QuestionRecord)
    (line : String) :
    (pyStrip line = "" → processLine (qs, cur) line = (qs, cur))
    ∧ (pyStartsWith (pyStrip line) "#Q" = false → pyStartsWith (pyStrip line) "^" = false →
       pyStartsWith (pyStrip line) "A" = false → pyStartsWith (pyStrip line) "B" = false →
       pyStartsWith (pyStrip line) "C" = false → pyStartsWith (pyStrip line) "D" = false →
       processLine (qs, cur) line = (qs, cur))
    ∧ (pyStartsWith (pyStrip line) "#Q" = false → processLine (qs, none) line = (qs, none))
    ∧ (∀ cq, pyStrip line ≠ "" →
       pyStartsWith (pyStrip line) "#Q" = false → pyStartsWith (pyStrip line) "^" = false →
       (pyStartsWith (pyStrip line) "A" || pyStartsWith (pyStrip line) "B" ||
        pyStartsWith (pyStrip line) "C" || pyStartsWith (pyStrip line) "D") = true →
       processLine (qs, some cq) line = (qs, some (addOption cq (pyStrip line)))
       ∧ (addOption cq (pyStrip line)).options.length = cq.options.length + 1) := by
  refine ⟨?_, ?_, ?_, ?_⟩
  · intro h
    simp [processLine, h]
  · intro h1 h2 h3 h4 h5 h6
    by_cases he : pyStrip line = ""
    · simp [processLine, he]
    · simp [processLine, he, h1, h2, h3, h4, h5, h6]
  · intro h1
    by_cases he : pyStrip line = ""
    · simp [processLine, he]
    · by_cases h2 : pyStartsWith (pyStrip line) "^" = true
      · simp [processLine, he, h1, h2]
      · by_cases h3 : (pyStartsWith (pyStrip line) "A" || pyStartsWith (pyStrip line) "B" ||
                       pyStartsWith (pyStrip line) "C" || pyStartsWith (pyStrip line) "D") = true
        · simp [processLine, he, h1, h2, h3]
        · simp [processLine, he, h1, h2, h3]
  · intro cq h0 h1 h2 h3
    constructor
    · simp [processLine, h0, h1, h2, h3]
    · simp [addOption]

/-- C8 witness: a non-marker line leaves the state untouched. -/
theorem c8_witness : processLine ([], none) "hello world" = ([], none) :=
  (c8_marker_behaviour [] none "hello world").2.1 (by decide) (by decide) (by decide)
    (by decide) (by decide) (by decide)

/-! # Claim C10 -/

/-- C10: on an option line inside an active record, a match against the
pending correct text always sets `correctAnswer` to the id of the option
appended by that very line — the latest matching option, overwriting any
earlier match — while an option appended before any `^` marker
(`correct_text = none`) leaves `correctAnswer` unchanged; in general
`correctAnswer` can only ever be (re)assigned to the id of the newly appended
option. -/
theorem c10_last_match_wins (qs : List QuestionRecord) (cq : QuestionRecord) (line : String)
    (h0 : pyStrip line ≠ "") (h1 : pyStartsWith (pyStrip line) "#Q" = false)
    (h2 : pyStartsWith (pyStrip line) "^" = false)
    (h3 : (pyStartsWith (pyStrip line) "A" || pyStartsWith (pyStrip line) "B" ||
           pyStartsWith (pyStrip line) "C" || pyStartsWith (pyStrip line) "D") = true) :
    processLine (qs, some cq) line = (qs, some (addOption cq (pyStrip line)))
    ∧ (∀ ct, cq.correct_text = some ct → ct ≠ "" → pyStrip (pyDrop (pyStrip line) 2) = ct →
        (addOption cq (pyStrip line)).correctAnswer = some (toString cq.options.length))
    ∧ (cq.correct_text = none →
        (addOption cq (pyStrip line)).correctAnswer = cq.correctAnswer)
    ∧ (∀ i, (addOption cq (pyStrip line)).correctAnswer = some i →
        i = toString cq.options.length ∨ cq.correctAnswer = some i) := by
  refine ⟨?_, ?_, ?_, ?_⟩
  · simp [processLine, h0, h1, h2, h3]
  · intro ct hct hne heq
    simp [addOption, matchCorrect, hct, hne, heq]
  · intro h
    simp [addOption, matchCorrect, h]
  · intro i hi
    simp only [addOption] at hi
    cases hct : cq.correct_text with
    | none =>
      rw [hct, matchCorrect] at hi
      exact Or.inr hi
    | some ct =>
      rw [hct, matchCorrect] at hi
      by_cases hcond : ct ≠ "" ∧ pyStrip (pyDrop (pyStrip line) 2) = ct
      · rw [if_pos hcond] at hi
        exact Or.inl (Option.some.inj hi).symm
      · rw [if_neg hcond] at hi
        exact Or.inr hi

/-- C10 witness: with pending correct text "X" already matched by option "0",
the option line `B X` overwrites `correctAnswer` with the new option's id "1". -/
theorem c10_witness : (addOption c10Cur (pyStrip "B X")).correctAnswer = some "1" :=
  (c10_last_match_wins [] c10Cur "B X" (by decide) (by decide) (by decide) (by decide)).2.1
    "X" (by decide) (by decide) (by decide)

/-! # pickFirstMax / selectTop lemmas -/

theorem pickFirstMax_mem (x : String × Nat) (l : List (String × Nat)) :
    pickFirstMax x l ∈ x :: l := by
  induction l generalizing x with
  | nil => exact List.mem_singleton.mpr rfl
  | cons y ys ih =>
    simp only [pickFirstMax]
    split
    · exact List.mem_cons_of_mem x (ih y)
    · rcases List.mem_cons.mp (ih x) with h | h
      · rw [h]; exact List.mem_cons_self _ _
      · exact List.mem_cons_of_mem _ (List.mem_cons_of_mem _ h)

theorem le_pickFirstMax (x : String × Nat) (l : List (String × Nat)) :
    ∀ y ∈ x :: l, y.2 ≤ (pickFirstMax x l).2 := by
  induction l generalizing x with
  | nil =>
    intro y hy
    rw [List.mem_singleton.mp hy]
    exact le_refl _
  | cons z zs ih =>
    intro y hy
    simp only [pickFirstMax]
    split
    · rename_i hlt
      rcases List.mem_cons.mp hy with h | h
      · have h1 : y.2 ≤ z.2 := by rw [h]; omega
        exact le_trans h1 (ih z z (List.mem_cons_self _ _))
      · exact ih z y h
    · rename_i hge
      rcases List.mem_cons.mp hy with h | h
      · exact ih x y (by rw [h]; exact List.mem_cons_self _ _)
      · rcases List.mem_cons.mp h with h2 | h2
        · have h1 : y.2 ≤ x.2 := by rw [h2]; omega
          exact le_trans h1 (ih x x (List.mem_cons_self _ _))
        · exact ih x y (List.mem_cons_of_mem _ h2)

theorem pickFirstMax_filter_pos (l : List (String × Nat)) :
    ∀ x, 0 < x.2 →
      pickFirstMax x (l.filter (fun pc => 0 < pc.2)) = pickFirstMax x l := by
  induction l with
  | nil => intro x _; rfl
  | cons y ys ih =>
    intro x hx
    by_cases hy : 0 < y.2
    · rw [List.filter_cons_of_pos (by simpa using hy)]
      simp only [pickFirstMax]
      split
      · exact ih y hy
      · exact ih x hx
    · rw [List.filter_cons_of_neg (by simpa using hy)]
      simp only [pickFirstMax]
      rw [if_neg (by omega)]
      exact ih x hx

theorem selectTop_filter_of_zero_head (l : List (String × Nat)) :
    ∀ x, x.2 = 0 → (∃ pc ∈ l, 0 < pc.2) →
      selectTop (l.filter (fun pc => 0 < pc.2)) = (pickFirstMax x l).1 := by
  induction l with
  | nil =>
    intro x _ hpos
    simp at hpos
  | cons y ys ih =>
    intro x hx hpos
    by_cases hy : 0 < y.2
    · rw [List.filter_cons_of_pos (by simpa using hy)]
      rw [selectTop, pickFirstMax_filter_pos ys y hy]
      simp only [pickFirstMax]
      rw [if_pos (by omega)]
    · have hy0 : y.2 = 0 := by omega
      rw [List.filter_cons_of_neg (by simpa using hy)]
      have hpos' : ∃ pc ∈ ys, 0 < pc.2 := by
        rcases hpos with ⟨pc, hm, hp⟩
        rcases List.mem_cons.mp hm with h | h
        · rw [h] at hp; omega
        · exact ⟨pc, h, hp⟩
      rw [ih x hx hpos']
      simp only [pickFirstMax]
      rw [if_neg (by omega)]

theorem selectTop_filter_eq (l : List (String × Nat)) :
    selectTop (l.filter (fun pc => 0 < pc.2)) =
      if l.all (fun pc => pc.2 = 0) then "Knowledge" else selectTop l := by
  by_cases hall : ∀ pc ∈ l, pc.2 = 0
  · rw [if_pos (by simpa [List.all_eq_true] using hall)]
    have hfil : l.filter (fun pc => 0 < pc.2) = [] := by
      rw [List.filter_eq_nil_iff]
      intro pc hpc
      simp [hall pc hpc]
    rw [hfil, selectTop]
  · rw [if_neg (by simpa [List.all_eq_true] using hall)]
    have hpos : ∃ pc ∈ l, 0 < pc.2 := by
      push_neg at hall
      rcases hall with ⟨pc, hm, hp⟩
      exact ⟨pc, hm, by omega⟩
    cases l with
    | nil => simp at hpos
    | cons x xs =>
      by_cases hx : 0 < x.2
      · rw [List.filter_cons_of_pos (by simpa using hx)]
        rw [selectTop, selectTop, pickFirstMax_filter_pos xs x hx]
      · have hx0 : x.2 = 0 := by omega
        rw [List.filter_cons_of_neg (by simpa using hx)]
        have hpos' : ∃ pc ∈ xs, 0 < pc.2 := by
          rcases hpos with ⟨pc, hm, hp⟩
          rcases List.mem_cons.mp hm with h | h
          · rw [h] at hp; omega
          · exact ⟨pc, h, hp⟩
        rw [selectTop_filter_of_zero_head xs x hx0 hpos', selectTop]

/-! # Claim C4 -/

/-- C4: `determine_major_category` refines the spec's classifier — it returns
the category of the fixed 8-entry table with the highest number of keywords
occurring as case-insensitive substrings of the joined lower-cased text and
tags; equal highest scores are resolved in favour of the category appearing
earlier in the table (the `scores` dict is populated in table order and
Python's `max` keeps the first maximum), and when every score is 0 the
default `"Knowledge"` is returned. -/
theorem c4_classifier_matches_spec (tags : List String) (question : String) :
    determine_major_category tags question = spec_classify tags question := by
  unfold determine_major_category spec_classify
  exact selectTop_filter_eq _

/-! # dedupKeepFirst lemmas -/

theorem dedupKeepFirstAux_sub :
    ∀ (l seen : List String) (x : String), x ∈ dedupKeepFirstAux seen l → x ∈ l := by
  intro l
  induction l with
  | nil => intro seen x hx; cases hx
  | cons y ys ih =>
    intro seen x hx
    rw [dedupKeepFirstAux] at hx
    split at hx
    · exact List.mem_cons_of_mem _ (ih seen x hx)
    · rcases List.mem_cons.mp hx with h | h
      · rw [h]; exact List.mem_cons_self _ _
      · exact List.mem_cons_of_mem _ (ih _ x h)

theorem dedupKeepFirst_sub (l : List String) (x : String) (hx : x ∈ dedupKeepFirst l) :
    x ∈ l :=
  dedupKeepFirstAux_sub l [] x hx

theorem dedupKeepFirstAux_nodup :
    ∀ (l seen : List String),
      (dedupKeepFirstAux seen l).Nodup ∧ ∀ x ∈ dedupKeepFirstAux seen l, x ∉ seen := by
  intro l
  induction l with
  | nil => intro seen; exact ⟨List.nodup_nil, by intro x hx; cases hx⟩
  | cons y ys ih =>
    intro seen
    rw [dedupKeepFirstAux]
    split
    · exact ih seen
    · rename_i hys
      obtain ⟨hnd, hs⟩ := ih (y :: seen)
      refine ⟨List.nodup_cons.mpr ⟨?_, hnd⟩, ?_⟩
      · intro hmem
        exact hs y hmem (List.mem_cons_self _ _)
      · intro x hx
        rcases List.mem_cons.mp hx with h | h
        · rw [h]; exact hys
        · exact fun hxs => hs x h (List.mem_cons_of_mem _ hxs)

theorem dedupKeepFirst_nodup (l : List String) : (dedupKeepFirst l).Nodup :=
  (dedupKeepFirstAux_nodup l []).1

/-! # create_quiz projections -/

theorem create_quiz_proj (sample : List TaggedQuestion → Nat → List TaggedQuestion)
    (nlp : String → List String) (qs : List TaggedQuestion) (i : Nat) :
    (create_quiz sample nlp qs i).questions.length = (sample qs (min 15 qs.length)).length
    ∧ (create_quiz sample nlp qs i).metadata.totalPoints =
        (sample qs (min 15 qs.length)).length * 10
    ∧ (create_quiz sample nlp qs i).metadata.estimatedDuration =
        (sample qs (min 15 qs.length)).length * 2
    ∧ (create_quiz sample nlp qs i).metadata.difficultyDistribution =
        { easy := (sample qs (min 15 qs.length)).length / 3,
          medium := (sample qs (min 15 qs.length)).length / 3,
          hard := (sample qs (min 15 qs.length)).length
                  - 2 * ((sample qs (min 15 qs.length)).length / 3) }
    ∧ (create_quiz sample nlp qs i).metadata.tags =
        determine_major_category (collectTags (sample qs (min 15 qs.length)))
            (joinedQuestions (sample qs (min 15 qs.length)))
          :: (dedupKeepFirst (collectTags (sample qs (min 15 qs.length)))).take 5 := by
  refine ⟨?_, rfl, rfl, rfl, rfl⟩
  simp [create_quiz, List.length_map, List.enum_length]

/-! # Claim C6 -/

/-- C6: for a quiz built over `n` selected questions the difficulty
distribution is `easy = n / 3`, `medium = n / 3`, `hard = n - 2 * (n / 3)`
(so the three parts sum to `n`), `totalPoints = 10 * n`, and in particular
`n = 14` gives `{easy := 4, medium := 4, hard := 6}`. -/
theorem c6_difficulty_and_points (sample : List TaggedQuestion → Nat → List TaggedQuestion)
    (nlp : String → List String) (qs : List TaggedQuestion) (i : Nat) (n : Nat)
    (hn : (create_quiz sample nlp qs i).questions.length = n) :
    (create_quiz sample nlp qs i).metadata.difficultyDistribution.easy = n / 3
    ∧ (create_quiz sample nlp qs i).metadata.difficultyDistribution.medium = n / 3
    ∧ (create_quiz sample nlp qs i).metadata.difficultyDistribution.hard = n - 2 * (n / 3)
    ∧ (create_quiz sample nlp qs i).metadata.difficultyDistribution.easy
      + (create_quiz sample nlp qs i).metadata.difficultyDistribution.medium
      + (create_quiz sample nlp qs i).metadata.difficultyDistribution.hard = n
    ∧ (create_quiz sample nlp qs i).metadata.totalPoints = 10 * n
    ∧ (n = 14 → (create_quiz sample nlp qs i).metadata.difficultyDistribution =
        { easy := 4, medium := 4, hard := 6 }) := by
  obtain ⟨h1, h2, _, h4, _⟩ := create_quiz_proj sample nlp qs i
  rw [h1] at hn
  subst hn
  refine ⟨by rw [h4], by rw [h4], by rw [h4], ?_, ?_, ?_⟩
  · rw [h4]
    show (sample qs (min 15 qs.length)).length / 3 + (sample qs (min 15 qs.length)).length / 3
      + ((sample qs (min 15 qs.length)).length
         - 2 * ((sample qs (min 15 qs.length)).length / 3))
      = (sample qs (min 15 qs.length)).length
    omega
  · rw [h2]; omega
  · intro h14
    rw [h4, h14]

/-- C6 witness: a pool of 14 questions yields the distribution
`{easy := 4, medium := 4, hard := 6}` and 140 total points. -/
theorem c6_witness :
    (create_quiz sampleTake nlp0 pool14 0).metadata.difficultyDistribution =
      { easy := 4, medium := 4, hard := 6 }
    ∧ (create_quiz sampleTake nlp0 pool14 0).metadata.totalPoints = 10 * 14 := by
  have h := c6_difficulty_and_points sampleTake nlp0 pool14 0 14 (by decide)
  exact ⟨h.2.2.2.2.2 rfl, h.2.2.2.2.1⟩

/-! # Claim C2 -/

/-- C2 counterexample: the major category is not excluded from the additional
tags — a single question tagged `["Science"]` that classifies to `"Science"`
produces the duplicated tag list `["Science", "Science"]`. -/
theorem c2_counterexample :
    (create_quiz sampleTake nlp0 [sciTQ] 0).metadata.tags = ["Science", "Science"] := by
  decide

/-- C2 amended: the final tag list is `[majorCategory]` followed by up to 5
deduplicated aggregate tags of the sampled questions; the additional tags are
mutually distinct and drawn from the aggregate tags, but the majorCategory is
NOT excluded from them, so `metadata.tags` may contain a duplicate when the
majorCategory also occurs among the aggregated question tags. -/
theorem c2_final_tag_list (sample : List TaggedQuestion → Nat → List TaggedQuestion)
    (nlp : String → List String) (qs : List TaggedQuestion) (i : Nat) :
    (create_quiz sample nlp qs i).metadata.tags =
      determine_major_category (collectTags (sample qs (min 15 qs.length)))
          (joinedQuestions (sample qs (min 15 qs.length)))
        :: (dedupKeepFirst (collectTags (sample qs (min 15 qs.length)))).take 5
    ∧ (create_quiz sample nlp qs i).metadata.tags.tail.Nodup
    ∧ (create_quiz sample nlp qs i).metadata.tags.tail.length ≤ 5
    ∧ ∀ t ∈ (create_quiz sample nlp qs i).metadata.tags.tail,
        t ∈ collectTags (sample qs (min 15 qs.length)) := by
  obtain ⟨_, _, _, _, h5⟩ := create_quiz_proj sample nlp qs i
  refine ⟨h5, ?_, ?_, ?_⟩
  · rw [h5]
    exact (dedupKeepFirst_nodup _).sublist (List.take_sublist _ _)
  · rw [h5]
    simp [List.length_take_le]
  · intro t ht
    rw [h5] at ht
    exact dedupKeepFirst_sub _ t (List.take_subset _ _ ht)

/-- C2 witness: in the duplicated-tag scenario the additional tag "Science"
indeed comes from the aggregated question tags. -/
theorem c2_witness :
    "Science" ∈ collectTags (sampleTake [sciTQ] (min 15 ([sciTQ] : List TaggedQuestion).length)) :=
  (c2_final_tag_list sampleTake nlp0 [sciTQ] 0).2.2.2 "Science" (by decide)

/-! # most_common / countsList lemmas -/

theorem most_common_sub :
    ∀ (n : Nat) (c : List (String × Nat)) (x : String × Nat), x ∈ most_common n c → x ∈ c := by
  intro n
  induction n with
  | zero =>
    intro c x hx
    rw [most_common] at hx
    cases hx
  | succ n ih =>
    intro c x hx
    cases c with
    | nil =>
      rw [most_common] at hx
      cases hx
    | cons y ys =>
      simp only [most_common] at hx
      rcases List.mem_cons.mp hx with h | h
      · rw [h]; exact pickFirstMax_mem y ys
      · exact (List.eraseP_sublist _).subset (ih _ x h)

theorem most_common_length :
    ∀ (n : Nat) (c : List (String × Nat)), (most_common n c).length ≤ n := by
  intro n
  induction n with
  | zero =>
    intro c
    rw [most_common]
    exact Nat.le_refl 0
  | succ n ih =>
    intro c
    cases c with
    | nil =>
      rw [most_common]
      exact Nat.zero_le _
    | cons y ys =>
      simp only [most_common, List.length_cons]
      exact Nat.succ_le_succ (ih _)

theorem most_common_pairwise :
    ∀ (n : Nat) (c : List (String × Nat)),
      (most_common n c).Pairwise (fun a b => b.2 ≤ a.2) := by
  intro n
  induction n with
  | zero =>
    intro c
    rw [most_common]
    exact List.Pairwise.nil
  | succ n ih =>
    intro c
    cases c with
    | nil =>
      rw [most_common]
      exact List.Pairwise.nil
    | cons y ys =>
      simp only [most_common]
      rw [List.pairwise_cons]
      refine ⟨?_, ih _⟩
      intro b hb
      have hbc := (List.eraseP_sublist _).subset (most_common_sub n _ b hb)
      exact le_pickFirstMax y ys b hbc

theorem countsList_count {l : List String} {pc : String × Nat} (h : pc ∈ countsList l) :
    pc.2 = l.count pc.1 := by
  simp only [countsList, List.mem_map] at h
  obtain ⟨k, _, hk⟩ := h
  rw [← hk]

/-! # Claim C3 -/

/-- C3 counterexample: the word-count/count filter is applied only AFTER
truncating to the 5 highest raw counts.  With five 4-word phrases of count 3
ahead of it, the qualifying entry "hit" (count 2 > 1, one word ≤ 3 — the top
qualifying entry) is not selected: the extractor returns the empty list. -/
theorem c3_counterexample :
    extract_key_phrases cxStream [] [] = []
    ∧ (mergedPhrases cxStream [] []).count "hit" = 2
    ∧ (pySplit "hit").length = 1 := by
  decide

/-- C3 amended: the extractor counts the merged stream, truncates to the top
5 entries by raw occurrence count (descending, ties by first-seen position),
and only then keeps entries with count > 1 and at most 3 words — so at most 5
phrases are returned, each returned phrase has raw count > 1 and ≤ 3 words,
returned phrases are ordered by non-increasing raw count, but a qualifying
entry outside the raw top 5 is not selected. -/
theorem c3_selection (f : String → List String) (questions : List TaggedQuestion)
    (tags : List String) :
    extract_key_phrases f questions tags =
      ((most_common 5 (countsList (mergedPhrases f questions tags))).filter
          (fun pc => 1 < pc.2 ∧ (pySplit pc.1).length ≤ 3)).map Prod.fst
    ∧ (extract_key_phrases f questions tags).length ≤ 5
    ∧ (∀ p ∈ extract_key_phrases f questions tags,
        1 < (mergedPhrases f questions tags).count p ∧ (pySplit p).length ≤ 3)
    ∧ (extract_key_phrases f questions tags).Pairwise
        (fun p q => (mergedPhrases f questions tags).count q
          ≤ (mergedPhrases f questions tags).count p) := by
  refine ⟨rfl, ?_, ?_, ?_⟩
  · calc (extract_key_phrases f questions tags).length
        = ((most_common 5 (countsList (mergedPhrases f questions tags))).filter
            (fun pc => 1 < pc.2 ∧ (pySplit pc.1).length ≤ 3)).length := by
          rw [extract_key_phrases, List.length_map]
      _ ≤ (most_common 5 (countsList (mergedPhrases f questions tags))).length :=
          List.length_filter_le _ _
      _ ≤ 5 := most_common_length 5 _
  · intro p hp
    rw [extract_key_phrases] at hp
    obtain ⟨pc, hpc, hfst⟩ := List.mem_map.mp hp
    obtain ⟨hmem, hpred⟩ := List.mem_filter.mp hpc
    have hcnt := countsList_count (most_common_sub 5 _ pc hmem)
    rw [decide_eq_true_eq] at hpred
    rw [← hfst, ← hcnt]
    exact hpred
  · rw [extract_key_phrases]
    rw [List.pairwise_map]
    have hpw : ((most_common 5 (countsList (mergedPhrases f questions tags))).filter
        (fun pc => 1 < pc.2 ∧ (pySplit pc.1).length ≤ 3)).Pairwise
          (fun a b => b.2 ≤ a.2) :=
      (most_common_pairwise 5 _).sublist (List.filter_sublist _)
    refine hpw.imp_of_mem ?_
    intro a b ha hb hle
    have hca := countsList_count (most_common_sub 5 _ a ((List.filter_sublist _).subset ha))
    have hcb := countsList_count (most_common_sub 5 _ b ((List.filter_sublist _).subset hb))
    rw [← hca, ← hcb]
    exact hle

/-- C3 witness: a qualifying phrase inside the raw top 5 is selected with its
true count and word bound. -/
theorem c3_witness :
    1 < (mergedPhrases hitStream [] []).count "hit" ∧ (pySplit "hit").length ≤ 3 :=
  (c3_selection hitStream [] []).2.2.1 "hit" (by decide)

/-! # Orchestrator lemmas -/

theorem group_len (w : List TaggedQuestion) (j : Nat) (hj : j < w.length / 15) :
    ((w.drop (j * 15)).take 15).length = 15 := by
  simp only [List.length_take, List.length_drop]
  omega

theorem windowQuizzes_length (sample : List TaggedQuestion → Nat → List TaggedQuestion)
    (nlp : String → List String) (w : List TaggedQuestion) :
    (windowQuizzes sample nlp w).length = w.length / 15 := by
  simp [windowQuizzes]

theorem generate_quizzes_eq_map (sample : List TaggedQuestion → Nat → List TaggedQuestion)
    (nlp : String → List String) (l : List TaggedQuestion) :
    generate_quizzes sample nlp l = (loopWindows l).map (windowQuizzes sample nlp) := by
  unfold generate_quizzes loopWindows
  rw [List.map_filterMap]
  congr 1
  funext i
  simp only [windowSlice]
  by_cases h : (l.drop (i * 100)).take 100 = []
  · simp [h]
  · simp [h]

theorem windowSlice_succ (l : List TaggedQuestion) (i : Nat) :
    windowSlice l (i + 1) = windowSlice (l.drop 100) i := by
  have h3 : l.drop ((i + 1) * 100) = (l.drop 100).drop (i * 100) := by
    rw [List.drop_drop]
    congr 1
    ring
  simp only [windowSlice, h3]

theorem loopWindows_nil : loopWindows [] = [] := rfl

theorem loopWindows_cons (l : List TaggedQuestion) (hne : l ≠ []) :
    loopWindows l = l.take 100 :: loopWindows (l.drop 100) := by
  unfold loopWindows
  rw [List.range_succ_eq_map, List.filterMap_cons]
  have h0 : windowSlice l 0 = some (l.take 100) := by
    simp only [windowSlice, Nat.zero_mul, List.drop_zero]
    rw [if_neg (by simp [List.take_eq_nil_iff, hne])]
  rw [h0, List.filterMap_map]
  have hfun : windowSlice l ∘ Nat.succ = windowSlice (l.drop 100) := by
    funext i
    exact windowSlice_succ l i
  rw [hfun]
  by_cases hge : 100 ≤ l.length
  · have hcount : l.length / 100 = (l.drop 100).length / 100 + 1 := by
      rw [List.length_drop]
      omega
    rw [hcount]
  · have h1 : l.length / 100 = 0 := by
      have : 0 < l.length := List.length_pos.mpr hne
      omega
    have hdrop : l.drop 100 = [] := List.drop_eq_nil_of_le (by omega)
    rw [h1, hdrop]
    rfl

theorem chunks100_nil : chunks100 [] = [] := by
  rw [chunks100]
  simp

theorem chunks100_eq_nil_iff (l : List TaggedQuestion) : chunks100 l = [] ↔ l = [] := by
  constructor
  · intro h
    by_contra hne
    rw [chunks100, if_neg hne] at h
    cases h
  · intro h
    subst h
    exact chunks100_nil

theorem loopWindows_eq_chunksN :
    ∀ (n : Nat) (l : List TaggedQuestion), l.length ≤ n → loopWindows l = chunks100 l := by
  intro n
  induction n with
  | zero =>
    intro l hl
    have h : l = [] := List.eq_nil_of_length_eq_zero (by omega)
    subst h
    rw [loopWindows_nil, chunks100_nil]
  | succ n ih =>
    intro l hl
    by_cases hne : l = []
    · subst hne
      rw [loopWindows_nil, chunks100_nil]
    · rw [loopWindows_cons l hne, chunks100, if_neg hne]
      congr 1
      apply ih
      rw [List.length_drop]
      have : 0 < l.length := List.length_pos.mpr hne
      omega

theorem loopWindows_eq_chunks (l : List TaggedQuestion) : loopWindows l = chunks100 l :=
  loopWindows_eq_chunksN l.length l (Nat.le_refl _)

theorem chunks100_joinN :
    ∀ (n : Nat) (l : List TaggedQuestion), l.length ≤ n → (chunks100 l).flatten = l := by
  intro n
  induction n with
  | zero =>
    intro l hl
    have h : l = [] := List.eq_nil_of_length_eq_zero (by omega)
    subst h
    rw [chunks100_nil]
    rfl
  | succ n ih =>
    intro l hl
    by_cases hne : l = []
    · subst hne
      rw [chunks100_nil]
      rfl
    · rw [chunks100, if_neg hne, List.flatten_cons]
      rw [ih (l.drop 100) (by
        rw [List.length_drop]
        have : 0 < l.length := List.length_pos.mpr hne
        omega)]
      exact List.take_append_drop 100 l

theorem chunks100_memN :
    ∀ (n : Nat) (l : List TaggedQuestion) (w : List TaggedQuestion), l.length ≤ n →
      w ∈ chunks100 l → w ≠ [] ∧ w.length ≤ 100 := by
  intro n
  induction n with
  | zero =>
    intro l w hl hw
    have h : l = [] := List.eq_nil_of_length_eq_zero (by omega)
    subst h
    rw [chunks100_nil] at hw
    cases hw
  | succ n ih =>
    intro l w hl hw
    by_cases hne : l = []
    · subst hne
      rw [chunks100_nil] at hw
      cases hw
    · rw [chunks100, if_neg hne] at hw
      rcases List.mem_cons.mp hw with h | h
      · subst h
        refine ⟨by simp [List.take_eq_nil_iff, hne], List.length_take_le _ _⟩
      · exact ih (l.drop 100) w (by
          rw [List.length_drop]
          have : 0 < l.length := List.length_pos.mpr hne
          omega) h

theorem chunks100_initN :
    ∀ (n : Nat) (l : List TaggedQuestion) (i : Nat) (w : List TaggedQuestion), l.length ≤ n →
      i + 1 < (chunks100 l).length → (chunks100 l)[i]? = some w → w.length = 100 := by
  intro n
  induction n with
  | zero =>
    intro l i w hl hi _
    have h : l = [] := List.eq_nil_of_length_eq_zero (by omega)
    subst h
    rw [chunks100_nil] at hi
    simp at hi
  | succ n ih =>
    intro l i w hl hi hw
    by_cases hne : l = []
    · subst hne
      rw [chunks100_nil] at hi
      simp at hi
    · rw [chunks100, if_neg hne] at hi hw
      cases i with
      | zero =>
        rw [List.getElem?_cons_zero] at hw
        have hwt : w = l.take 100 := (Option.some.inj hw).symm
        subst hwt
        simp only [List.length_cons] at hi
        have hrest : chunks100 (l.drop 100) ≠ [] := by
          intro hempty
          rw [hempty] at hi
          simp at hi
        have hdrop : l.drop 100 ≠ [] := (chunks100_eq_nil_iff _).not.mp hrest
        have hlen : 100 < l.length := by
          by_contra hc
          exact hdrop (List.drop_eq_nil_of_le (by omega))
        rw [List.length_take]
        omega
      | succ i =>
        rw [List.getElem?_cons_succ] at hw
        simp only [List.length_cons] at hi
        exact ih (l.drop 100) i w (by
          rw [List.length_drop]
          have : 0 < l.length := List.length_pos.mpr hne
          omega) (by omega) hw

/-! # Claim C7 -/

/-- C7: the orchestrator splits the master sequence into consecutive windows
of 100 records (their concatenation is the master sequence, every window is
non-empty with at most 100 records, and every window except possibly the last
has exactly 100), produces one output document per window, and within a
window builds one quiz per full group of 15 consecutive records — exactly
`w.length / 15` quizzes, each group having exactly 15 records, the trailing
partial group being discarded. -/
theorem c7_windowing (sample : List TaggedQuestion → Nat → List TaggedQuestion)
    (nlp : String → List String) (qs : List TaggedQuestion) :
    generate_quizzes sample nlp qs = (chunks100 qs).map (windowQuizzes sample nlp)
    ∧ (chunks100 qs).flatten = qs
    ∧ (∀ w ∈ chunks100 qs, w ≠ [] ∧ w.length ≤ 100)
    ∧ (∀ (i : Nat) (w : List TaggedQuestion), i + 1 < (chunks100 qs).length →
        (chunks100 qs)[i]? = some w → w.length = 100)
    ∧ (∀ (w : List TaggedQuestion), (windowQuizzes sample nlp w).length = w.length / 15)
    ∧ (∀ (w : List TaggedQuestion) (j : Nat), j < w.length / 15 →
        ((w.drop (j * 15)).take 15).length = 15) := by
  refine ⟨?_, ?_, ?_, ?_, ?_, ?_⟩
  · rw [generate_quizzes_eq_map, loopWindows_eq_chunks]
  · exact chunks100_joinN qs.length qs (Nat.le_refl _)
  · intro w hw
    exact chunks100_memN qs.length qs w (Nat.le_refl _) hw
  · intro i w hi hw
    exact chunks100_initN qs.length qs i w (Nat.le_refl _) hi hw
  · intro w
    exact windowQuizzes_length sample nlp w
  · intro w j hj
    exact group_len w j hj

/-- C7 witness: a 35-record window yields 35 / 15 = 2 quizzes, its second
group has exactly 15 records, and re-joining the windows of a 35-record
master sequence restores it. -/
theorem c7_witness :
    (windowQuizzes sampleTake nlp0 pool35).length = pool35.length / 15
    ∧ ((pool35.drop (1 * 15)).take 15).length = 15
    ∧ (chunks100 pool35).flatten = pool35 := by
  have h := c7_windowing sampleTake nlp0 pool35
  exact ⟨h.2.2.2.2.1 pool35, h.2.2.2.2.2 pool35 1 (by decide), h.2.1⟩

/-! # Claim C9 -/

/-- C9: provided the random source fulfils `random.sample`'s contract
(`len(sample(l, k)) = k` whenever `k ≤ len(l)`), every quiz of every output
document of the batch run has exactly 15 questions, 150 total points, and an
estimated duration of 30 minutes: quiz creation is invoked only on groups of
exactly 15 records, and `min(15, poolSize)` then selects all 15. -/
theorem c9_emitted_quiz_size (sample : List TaggedQuestion → Nat → List TaggedQuestion)
    (nlp : String → List String)
    (hs : ∀ (l : List TaggedQuestion) (k : Nat), k ≤ l.length → (sample l k).length = k)
    (qs : List TaggedQuestion) (doc : List Quiz)
    (hdoc : doc ∈ generate_quizzes sample nlp qs) (quiz : Quiz) (hquiz : quiz ∈ doc) :
    quiz.questions.length = 15 ∧ quiz.metadata.totalPoints = 150
    ∧ quiz.metadata.estimatedDuration = 30 := by
  rw [generate_quizzes_eq_map] at hdoc
  obtain ⟨w, _, hdw⟩ := List.mem_map.mp hdoc
  subst hdw
  simp only [windowQuizzes] at hquiz
  obtain ⟨j, hjr, hjq⟩ := List.mem_map.mp hquiz
  have hj : j < w.length / 15 := List.mem_range.mp hjr
  subst hjq
  have hg : ((w.drop (j * 15)).take 15).length = 15 := group_len w j hj
  obtain ⟨h1, h2, h3, _, _⟩ := create_quiz_proj sample nlp ((w.drop (j * 15)).take 15) j
  have hsel : (sample ((w.drop (j * 15)).take 15)
      (min 15 ((w.drop (j * 15)).take 15).length)).length = 15 := by
    rw [hg]
    exact hs _ 15 (by rw [hg])
  refine ⟨by rw [h1, hsel], by rw [h2, hsel], by rw [h3, hsel]⟩

set_option maxRecDepth 100000 in
/-- C9 witness: the quiz generated from a 15-record pool has 15 questions,
150 points and a 30-minute estimated duration. -/
theorem c9_witness :
    c9Quiz.questions.length = 15 ∧ c9Quiz.metadata.totalPoints = 150
    ∧ c9Quiz.metadata.estimatedDuration = 30 :=
  c9_emitted_quiz_size sampleTake nlp0
    (by
      intro l k hk
      simp only [sampleTake, List.length_take]
      omega)
    pool15 [c9Quiz] (by decide) c9Quiz (by decide)

end QuizGen
